import Mathlib

/-!
Verification development for the glyph-calculator core of the gfx-glyph
repository (file src/glyph_calculator.rs).

The embedding models:
  - the Bounds Reducer, GlyphedSection::pixel_bounds, including the f32-to-i32
    conversion of the declared layout bounds (f32 values are embedded as exact
    rationals extended with the special values posInf, negInf and nan; the Rust
    saturating float-to-int cast is modelled explicitly);
  - the Computed Layout Cache and the Cache Scope, GlyphCalculatorGuard,
    with cache_glyphs, pixel_bounds_custom_layout, glyphs_custom_layout and the
    Drop implementation that prunes untouched entries;
  - the fingerprinting hasher as an abstract function from a section and the
    hashable state of a positioner to a fingerprint.

The cache is embedded as an association list keyed by fingerprints (the
observable behaviour of the FxHashMap: lookup, insert-if-vacant, retain); the
touched set is a duplicate-free list (the observable behaviour of FxHashSet:
membership and insert).
-/

namespace GfxGlyph

/-- Points as in rusttype, generic over the scalar type. -/
structure Point (α : Type) where
  x : α
  y : α
deriving DecidableEq, Repr

/-- Rectangles as in rusttype: a min corner and a max corner. -/
structure Rect (α : Type) where
  min : Point α
  max : Point α
deriving DecidableEq, Repr

/-- Embedding of f32 values: every finite f32 is an exact rational, plus the
three special values.  Operations used by the source (floor, ceil, ordering,
casting to i32) are modelled exactly on this type. -/
inductive F32 where
  | finite (val : ℚ)
  | posInf
  | negInf
  | nan
deriving DecidableEq, Repr

/-- Mathematical ceiling on rationals, computably, as the negated floor of the
negation.  Bridged to Mathlib ceil by ratCeil_eq below. -/
def ratCeil (q : ℚ) : Int := -Rat.floor (-q)

/-- Truncation toward zero on rationals (the rounding used by a Rust
float-to-int cast). -/
def ratTrunc (q : ℚ) : Int := if 0 ≤ q then Rat.floor q else ratCeil q

/-- Saturation of an integer into the value range of i32. -/
def clampI32 (n : Int) : Int := max (-2147483648) (min 2147483647 n)

/-- Model of f32::floor: exact on finite values, identity on the special
values (IEEE 754 floor maps each of inf, -inf, nan to itself). -/
def F32.floor : F32 → F32
  | .finite q => .finite ((Rat.floor q : Int) : ℚ)
  | v => v

/-- Model of f32::ceil: exact on finite values, identity on the special
values. -/
def F32.ceil : F32 → F32
  | .finite q => .finite ((ratCeil q : Int) : ℚ)
  | v => v

/-- Model of the f32 strict greater-than comparison; every comparison with nan
is false. -/
def F32.gtb : F32 → F32 → Bool
  | .nan, _ => false
  | _, .nan => false
  | .finite a, .finite b => decide (b < a)
  | .finite _, .posInf => false
  | .finite _, .negInf => true
  | .posInf, .posInf => false
  | .posInf, _ => true
  | .negInf, _ => false

/-- Model of the Rust cast expression `v as i32`: truncate toward zero and
saturate into the i32 range; nan casts to 0. -/
def F32.toI32 : F32 → Int
  | .finite q => clampI32 (ratTrunc q)
  | .posInf => 2147483647
  | .negInf => -2147483648
  | .nan => 0

/-- The f32 value of the Rust expression `i32::MAX as f32`: 2147483647 is not
representable in f32 and rounds to 2147483648. -/
def I32_MAX_AS_F32 : F32 := .finite ((2147483648 : Int) : ℚ)

/-- The closure max_to_i32 from GlyphedSection::pixel_bounds:
take the ceiling, return i32::MAX if it compares above `i32::MAX as f32`,
otherwise cast it with `as i32`. -/
def max_to_i32 (m : F32) : Int :=
  let ceil := m.ceil
  if ceil.gtb I32_MAX_AS_F32 then 2147483647 else ceil.toI32

/-- The integer layout rectangle computed at the top of
GlyphedSection::pixel_bounds: floor of the min corner cast with `as i32`,
max corner via max_to_i32. -/
def layout_bounds (bounds : Rect F32) : Rect Int :=
  { min := { x := bounds.min.x.floor.toI32, y := bounds.min.y.floor.toI32 },
    max := { x := max_to_i32 bounds.max.x, y := max_to_i32 bounds.max.y } }

/-- The closure inside_layout from GlyphedSection::pixel_bounds: reject a glyph
box strictly outside the layout rectangle on some axis, otherwise clamp it to
the intersection. -/
def inside_layout (lb : Rect Int) (rect : Rect Int) : Option (Rect Int) :=
  if rect.max.x < lb.min.x ∨ rect.max.y < lb.min.y ∨
      rect.min.x > lb.max.x ∨ rect.min.y > lb.max.y then
    none
  else
    some { min := { x := max rect.min.x lb.min.x, y := max rect.min.y lb.min.y },
           max := { x := min rect.max.x lb.max.x, y := min rect.max.y lb.max.y } }

/-- One iteration of the accumulation loop in GlyphedSection::pixel_bounds.
The state is the no_match flag paired with the running rectangle; each of the
four components is updated exactly as the corresponding `if` in the source. -/
def pbStep (st : Bool × Rect Int) (r : Rect Int) : Bool × Rect Int :=
  let noMatch := st.1
  let pb := st.2
  (false,
   { min := { x := if noMatch ∨ r.min.x < pb.min.x then r.min.x else pb.min.x,
              y := if noMatch ∨ r.min.y < pb.min.y then r.min.y else pb.min.y },
     max := { x := if noMatch ∨ r.max.x > pb.max.x then r.max.x else pb.max.x,
              y := if noMatch ∨ r.max.y > pb.max.y then r.max.y else pb.max.y } })

/-- Opaque model of a rusttype positioned glyph: an identity together with the
result of pixel_bounding_box (none for glyphs without visible pixels, for
example whitespace). -/
structure PositionedGlyph where
  glyphId : Nat
  pixelBoundingBox : Option (Rect Int)
deriving DecidableEq, Repr

/-- Opaque model of a colour value. -/
abbrev Color := Nat

/-- Opaque model of a font identifier. -/
abbrev FontId := Nat

/-- Opaque model of the font registry; only passed through to the positioner. -/
abbrev FontMap := List Nat

/-- The cache value type of the source: declared bounds, the ordered list of
(positioned glyph, colour, font id) triples, and the z value. -/
structure GlyphedSection where
  bounds : Rect F32
  glyphs : List (PositionedGlyph × Color × FontId)
  z : F32

/-- GlyphedSection::pixel_bounds, the Bounds Reducer: convert the declared
bounds to an integer rectangle, keep the glyph pixel boxes that intersect it,
clamp them, and accumulate their union with the no_match flag loop; the result
is dropped when no box survived. -/
def GlyphedSection.pixel_bounds (gs : GlyphedSection) : Option (Rect Int) :=
  let lb := layout_bounds gs.bounds
  let boxes := (gs.glyphs.filterMap (fun e => e.1.pixelBoundingBox)).filterMap
    (inside_layout lb)
  let res := boxes.foldl pbStep
    (true, { min := { x := 0, y := 0 }, max := { x := 0, y := 0 } })
  if res.1 then none else some res.2

/-- GlyphedSection::glyphs: the iterator over the stored positioned glyphs, in
stored order, dropping the colour and font id components.  (The source names
both the field and the method `glyphs`; the method is named glyphsIter here.) -/
def GlyphedSection.glyphsIter (gs : GlyphedSection) : List PositionedGlyph :=
  gs.glyphs.map (fun e => e.1)

/-- The surviving clamped glyph boxes of a section: pixel bounding boxes of its
glyphs, intersected with the integer layout rectangle. -/
def survivors (gs : GlyphedSection) : List (Rect Int) :=
  (gs.glyphs.filterMap (fun e => e.1.pixelBoundingBox)).filterMap
    (inside_layout (layout_bounds gs.bounds))

/-- Component-wise union of two rectangles: min of the mins, max of the
maxes. -/
def unionRect (a b : Rect Int) : Rect Int :=
  { min := { x := min a.min.x b.min.x, y := min a.min.y b.min.y },
    max := { x := max a.max.x b.max.x, y := max a.max.y b.max.y } }

/-- Model of a VariedSection: an opaque content value standing for all the
hashable request data (text runs, position, declared bounds, layout choice)
plus the z value, the only field the caching code reads directly. -/
structure VariedSection where
  content : Nat
  z : F32

/-- Model of a GlyphPositioner capability: its hashable configuration state
(hashTag) plus the two pure functions the cache consumes, bounds_rect and
calculate_glyphs. -/
structure GlyphPositioner where
  hashTag : Nat
  bounds_rect : VariedSection → Rect F32
  calculate_glyphs : FontMap → VariedSection → List (PositionedGlyph × Color × FontId)

/-- The cache: fingerprint-keyed association list of computed layouts, the
observable behaviour of the FxHashMap of the source. -/
abbrev GlyphCache := List (Nat × GlyphedSection)

/-- Fingerprinting: the section hasher of the source, modelled as a function
of the hashable section state and the hashable positioner state (build_hasher,
section.hash, layout.hash, finish). -/
abbrev SectionHasher := VariedSection → Nat → Nat

/-- Lookup of a fingerprint in the cache. -/
def cacheLookup : GlyphCache → Nat → Option GlyphedSection
  | [], _ => none
  | e :: rest, h => if e.1 = h then some e.2 else cacheLookup rest h

/-- Insertion into the touched set (HashSet::insert: no duplicates). -/
def insertHash (s : List Nat) (h : Nat) : List Nat := if h ∈ s then s else h :: s

/-- The GlyphCalculator: font registry, the shared computed-layout cache and
the section hasher.  The mutex is not modelled; a scope is the only holder of
the cache while it is open. -/
structure GlyphCalculator where
  fonts : FontMap
  calculate_glyph_cache : GlyphCache
  section_hasher : SectionHasher

/-- The GlyphCalculatorGuard: borrowed fonts, the locked cache, the touched
set (named cached in the source) and the cloned section hasher. -/
structure GlyphCalculatorGuard where
  fonts : FontMap
  glyph_cache : GlyphCache
  cached : List Nat
  section_hasher : SectionHasher

/-- GlyphCalculator::cache_scope: lock the cache and start a scope with an
empty touched set. -/
def cache_scope (c : GlyphCalculator) : GlyphCalculatorGuard :=
  { fonts := c.fonts, glyph_cache := c.calculate_glyph_cache,
    cached := [], section_hasher := c.section_hasher }

/-- The computed layout inserted by cache_glyphs on a vacant entry: the
declared bounds from the positioner, the positioned glyphs from the
positioner, and the z of the section. -/
def computedLayout (fonts : FontMap) (s : VariedSection) (layout : GlyphPositioner) :
    GlyphedSection :=
  { bounds := layout.bounds_rect s,
    glyphs := layout.calculate_glyphs fonts s,
    z := s.z }

/-- GlyphCalculatorGuard::cache_glyphs: fingerprint the (section, positioner)
pair; when the fingerprint is vacant, invoke the positioner and insert the
computed layout; return the fingerprint.  The Bool records whether
calculate_glyphs was invoked (instrumentation for the counting-positioner
observation; the source computes exactly when the entry is vacant). -/
def cache_glyphs (g : GlyphCalculatorGuard) (s : VariedSection) (layout : GlyphPositioner) :
    Nat × Bool × GlyphCalculatorGuard :=
  let section_hash := g.section_hasher s layout.hashTag
  match cacheLookup g.glyph_cache section_hash with
  | some _ => (section_hash, false, g)
  | none =>
    (section_hash, true,
     { g with glyph_cache := (section_hash, computedLayout g.fonts s layout) :: g.glyph_cache })

/-- GlyphCruncher::pixel_bounds_custom_layout for the guard: cache the
section, record the fingerprint in the touched set and derive the pixel
bounds from the cached layout.  The outer Option models the direct index into
the hash map, which panics when the fingerprint is absent (none = panic); the
Bool is the instrumentation flag of cache_glyphs. -/
def pixel_bounds_custom_layout (g : GlyphCalculatorGuard) (s : VariedSection)
    (layout : GlyphPositioner) :
    Option (Option (Rect Int)) × Bool × GlyphCalculatorGuard :=
  let r := cache_glyphs g s layout
  let g2 := { r.2.2 with cached := insertHash r.2.2.cached r.1 }
  ((cacheLookup g2.glyph_cache r.1).map (fun e => e.pixel_bounds), r.2.1, g2)

/-- GlyphCruncher::glyphs_custom_layout for the guard: cache the section,
record the fingerprint in the touched set and derive the positioned-glyph
sequence from the cached layout.  Option and Bool as in
pixel_bounds_custom_layout. -/
def glyphs_custom_layout (g : GlyphCalculatorGuard) (s : VariedSection)
    (layout : GlyphPositioner) :
    Option (List PositionedGlyph) × Bool × GlyphCalculatorGuard :=
  let r := cache_glyphs g s layout
  let g2 := { r.2.2 with cached := insertHash r.2.2.cached r.1 }
  ((cacheLookup g2.glyph_cache r.1).map (fun e => e.glyphsIter), r.2.1, g2)

/-- Drop for GlyphCalculatorGuard: take the touched set and retain exactly the
cache entries whose key it contains.  Returns the pruned cache that the
calculator keeps after the scope is released. -/
def dropGuard (g : GlyphCalculatorGuard) : GlyphCache :=
  g.glyph_cache.filter (fun e => e.1 ∈ g.cached)

/-- A query issued against an open scope. -/
inductive QueryOp where
  | pixelBoundsQ (s : VariedSection) (layout : GlyphPositioner)
  | glyphsQ (s : VariedSection) (layout : GlyphPositioner)

/-- State transition of the guard under one query. -/
def applyOp (g : GlyphCalculatorGuard) : QueryOp → GlyphCalculatorGuard
  | .pixelBoundsQ s layout => (pixel_bounds_custom_layout g s layout).2.2
  | .glyphsQ s layout => (glyphs_custom_layout g s layout).2.2

/-- A whole scope: open it, run the queries in order, release it; the
calculator keeps the pruned cache.  The release (dropGuard) is applied exactly
once, mirroring the Drop implementation. -/
def runScope (c : GlyphCalculator) (ops : List QueryOp) : GlyphCalculator :=
  { c with calculate_glyph_cache := dropGuard (ops.foldl applyOp (cache_scope c)) }

/-- Guards reachable during one open scope: the freshly opened scope of any
calculator, followed by any sequence of queries. -/
inductive Reachable : GlyphCalculatorGuard → Prop where
  | init (c : GlyphCalculator) : Reachable (cache_scope c)
  | stepPixelBounds (g : GlyphCalculatorGuard) (s : VariedSection) (layout : GlyphPositioner) :
      Reachable g → Reachable ((pixel_bounds_custom_layout g s layout).2.2)
  | stepGlyphs (g : GlyphCalculatorGuard) (s : VariedSection) (layout : GlyphPositioner) :
      Reachable g → Reachable ((glyphs_custom_layout g s layout).2.2)

/-- A layout rectangle value used by the concrete example positioner. -/
def rectZero : Rect F32 :=
  { min := { x := .finite ((0 : Int) : ℚ), y := .finite ((0 : Int) : ℚ) },
    max := { x := .finite ((0 : Int) : ℚ), y := .finite ((0 : Int) : ℚ) } }

/-- A concrete positioner used by the examples: no glyphs, zero bounds. -/
def layoutZero : GlyphPositioner where
  hashTag := 0
  bounds_rect := fun _ => rectZero
  calculate_glyphs := fun _ _ => []

/-- A hasher whose fingerprint is the section content (distinct contents give
distinct fingerprints). -/
def contentHasher : SectionHasher := fun s _ => s.content

/-- A constant hasher: every (section, positioner) pair collides. -/
def constHasher : SectionHasher := fun _ _ => 7

/-- Concrete section with content 1. -/
def secOne : VariedSection := { content := 1, z := .finite ((0 : Int) : ℚ) }

/-- Concrete section with content 2. -/
def secTwo : VariedSection := { content := 2, z := .finite ((0 : Int) : ℚ) }

/-- Concrete calculator with an empty cache and the content hasher. -/
def calcEx : GlyphCalculator where
  fonts := []
  calculate_glyph_cache := []
  section_hasher := contentHasher

/-- Concrete calculator with an empty cache and the constant hasher. -/
def calcCollide : GlyphCalculator where
  fonts := []
  calculate_glyph_cache := []
  section_hasher := constHasher

/-- Queries of scope A in the pruning scenario: touch fingerprints 1 and 2. -/
def opsA : List QueryOp := [.pixelBoundsQ secOne layoutZero, .pixelBoundsQ secTwo layoutZero]

/-- Queries of scope B in the pruning scenario: touch only fingerprint 1. -/
def opsB : List QueryOp := [.pixelBoundsQ secOne layoutZero]

/-- Concrete glyphed section: bounds 0..10 on both axes, one glyph with pixel
box from (1,1) to (2,2). -/
def gsEx : GlyphedSection where
  bounds :=
    { min := { x := .finite ((0 : Int) : ℚ), y := .finite ((0 : Int) : ℚ) },
      max := { x := .finite ((10 : Int) : ℚ), y := .finite ((10 : Int) : ℚ) } }
  glyphs :=
    [({ glyphId := 0,
        pixelBoundingBox := some { min := { x := 1, y := 1 }, max := { x := 2, y := 2 } } },
      0, 0)]
  z := .finite ((0 : Int) : ℚ)

/-- Declared bounds whose min x is the finite f32 value -2^32, below the i32
range. -/
def c5Bounds : Rect F32 :=
  { min := { x := .finite ((-4294967296 : Int) : ℚ), y := .finite ((0 : Int) : ℚ) },
    max := { x := .finite ((0 : Int) : ℚ), y := .finite ((0 : Int) : ℚ) } }

/-- Concrete glyphed section whose declared x bounds are the finite f32 value
-2^32 (below the i32 range) and whose single glyph sits at x = i32::MIN. -/
def c6Section : GlyphedSection where
  bounds :=
    { min := { x := .finite ((-4294967296 : Int) : ℚ), y := .finite ((0 : Int) : ℚ) },
      max := { x := .finite ((-4294967296 : Int) : ℚ), y := .finite ((1 : Int) : ℚ) } }
  glyphs :=
    [({ glyphId := 0,
        pixelBoundingBox := some { min := { x := -2147483648, y := 0 },
                                   max := { x := -2147483648, y := 1 } } },
      0, 0)]
  z := .finite ((0 : Int) : ℚ)

/-- Containment of a rectangle in a layout rectangle, component-wise. -/
def withinLB (lb r : Rect Int) : Prop :=
  lb.min.x ≤ r.min.x ∧ lb.min.y ≤ r.min.y ∧ r.max.x ≤ lb.max.x ∧ r.max.y ≤ lb.max.y

/-- The touched set only holds fingerprints present in the cache. -/
def InvTouched (g : GlyphCalculatorGuard) : Prop :=
  ∀ k ∈ g.cached, (cacheLookup g.glyph_cache k).isSome = true

theorem ratFloor_eq (q : ℚ) : Rat.floor q = ⌊q⌋ :=
  eq_of_forall_le_iff fun z => by rw [Rat.le_floor, Int.le_floor]

theorem ratCeil_eq (q : ℚ) : ratCeil q = ⌈q⌉ := by
  rw [ratCeil, ratFloor_eq, ← Int.ceil_neg, neg_neg]

theorem ratFloor_intCast (n : Int) : Rat.floor ((n : Int) : ℚ) = n := by
  rw [ratFloor_eq, Int.floor_intCast]

theorem ratCeil_intCast (n : Int) : ratCeil ((n : Int) : ℚ) = n := by
  rw [ratCeil_eq, Int.ceil_intCast]

theorem ratTrunc_intCast (n : Int) : ratTrunc ((n : Int) : ℚ) = n := by
  unfold ratTrunc
  split
  · exact ratFloor_intCast n
  · exact ratCeil_intCast n

theorem F32_toI32_intCast (n : Int) : (F32.finite ((n : Int) : ℚ)).toI32 = clampI32 n := by
  simp [F32.toI32, ratTrunc_intCast]

theorem max_to_i32_finite (q : ℚ) : max_to_i32 (.finite q) = clampI32 (ratCeil q) := by
  unfold max_to_i32 F32.ceil F32.gtb I32_MAX_AS_F32
  simp only []
  split
  · next hgt =>
    have h : (2147483648 : Int) < ratCeil q := by
      have := of_decide_eq_true hgt
      exact_mod_cast this
    unfold clampI32
    omega
  · exact F32_toI32_intCast (ratCeil q)

theorem layout_bounds_finite (a b c d : ℚ) :
    layout_bounds { min := { x := .finite a, y := .finite b },
                    max := { x := .finite c, y := .finite d } } =
      { min := { x := clampI32 (Rat.floor a), y := clampI32 (Rat.floor b) },
        max := { x := clampI32 (ratCeil c), y := clampI32 (ratCeil d) } } := by
  unfold layout_bounds
  simp only [F32.floor, F32_toI32_intCast, max_to_i32_finite]

theorem pbStep_false (pb r : Rect Int) : pbStep (false, pb) r = (false, unionRect pb r) := by
  simp only [pbStep, unionRect, Bool.false_eq_true, false_or, Prod.mk.injEq,
    Rect.mk.injEq, Point.mk.injEq]
  refine ⟨trivial, ⟨?_, ?_⟩, ?_, ?_⟩ <;> split <;> omega

theorem pbStep_true (z r : Rect Int) : pbStep (true, z) r = (false, r) := by
  simp [pbStep]

theorem foldl_pbStep_false (l : List (Rect Int)) (pb : Rect Int) :
    l.foldl pbStep (false, pb) = (false, l.foldl unionRect pb) := by
  induction l generalizing pb with
  | nil => rfl
  | cons b rest ih => rw [List.foldl_cons, pbStep_false, List.foldl_cons]; exact ih _

theorem pixel_bounds_eq (gs : GlyphedSection) :
    gs.pixel_bounds =
      match survivors gs with
      | [] => none
      | b :: l => some (l.foldl unionRect b) := by
  have key : gs.pixel_bounds =
      (if ((survivors gs).foldl pbStep
            (true, { min := { x := 0, y := 0 }, max := { x := 0, y := 0 } })).1 then none
       else some ((survivors gs).foldl pbStep
            (true, { min := { x := 0, y := 0 }, max := { x := 0, y := 0 } })).2) := rfl
  rw [key]
  cases h : survivors gs with
  | nil => simp
  | cons b l =>
    rw [List.foldl_cons, pbStep_true, foldl_pbStep_false]
    simp

theorem inside_layout_none_iff (lb rect : Rect Int) :
    inside_layout lb rect = none ↔
      (rect.max.x < lb.min.x ∨ rect.max.y < lb.min.y ∨
        rect.min.x > lb.max.x ∨ rect.min.y > lb.max.y) := by
  unfold inside_layout
  split
  · next h => simp [h]
  · next h => simp [h]

theorem inside_layout_some_within (lb rect out : Rect Int)
    (h : inside_layout lb rect = some out) : withinLB lb out := by
  unfold inside_layout at h
  split at h
  · exact absurd h (by simp)
  · injection h with h
    subst h
    refine ⟨le_max_right _ _, le_max_right _ _, min_le_right _ _, min_le_right _ _⟩

theorem unionRect_within (lb a b : Rect Int) (ha : withinLB lb a) (hb : withinLB lb b) :
    withinLB lb (unionRect a b) := by
  obtain ⟨a1, a2, a3, a4⟩ := ha
  obtain ⟨b1, b2, b3, b4⟩ := hb
  refine ⟨?_, ?_, ?_, ?_⟩ <;> simp [unionRect] <;> omega

theorem foldl_union_within (lb : Rect Int) (l : List (Rect Int)) (acc : Rect Int)
    (hacc : withinLB lb acc) (hl : ∀ b ∈ l, withinLB lb b) :
    withinLB lb (l.foldl unionRect acc) := by
  induction l generalizing acc with
  | nil => exact hacc
  | cons b rest ih =>
    rw [List.foldl_cons]
    exact ih _ (unionRect_within _ _ _ hacc (hl b (List.mem_cons_self _ _)))
      (fun x hx => hl x (List.mem_cons_of_mem _ hx))

theorem survivors_within (gs : GlyphedSection) (b : Rect Int) (hb : b ∈ survivors gs) :
    withinLB (layout_bounds gs.bounds) b := by
  unfold survivors at hb
  obtain ⟨rect, _, hio⟩ := List.mem_filterMap.mp hb
  exact inside_layout_some_within _ _ _ hio

theorem pixel_bounds_within (gs : GlyphedSection) (r : Rect Int)
    (h : gs.pixel_bounds = some r) : withinLB (layout_bounds gs.bounds) r := by
  rw [pixel_bounds_eq] at h
  cases hs : survivors gs with
  | nil => rw [hs] at h; exact absurd h (by simp)
  | cons b l =>
    rw [hs] at h
    injection h with h
    subst h
    refine foldl_union_within _ _ _ ?_ ?_
    · exact survivors_within gs b (hs ▸ List.mem_cons_self _ _)
    · exact fun x hx => survivors_within gs x (hs ▸ List.mem_cons_of_mem _ hx)

theorem mem_insertHash (l : List Nat) (h k : Nat) :
    k ∈ insertHash l h ↔ k = h ∨ k ∈ l := by
  unfold insertHash
  split
  · next hm =>
    constructor
    · exact fun hk => Or.inr hk
    · rintro (rfl | hk)
      · exact hm
      · exact hk
  · simp [List.mem_cons]

theorem self_mem_insertHash (l : List Nat) (h : Nat) : h ∈ insertHash l h :=
  (mem_insertHash l h h).mpr (Or.inl rfl)

theorem insertHash_of_mem (l : List Nat) (h : Nat) (hm : h ∈ l) : insertHash l h = l := by
  unfold insertHash
  simp [hm]

theorem cache_glyphs_hash (g : GlyphCalculatorGuard) (s : VariedSection)
    (layout : GlyphPositioner) :
    (cache_glyphs g s layout).1 = g.section_hasher s layout.hashTag := by
  simp only [cache_glyphs]
  cases h : cacheLookup g.glyph_cache (g.section_hasher s layout.hashTag) <;> simp [h]

theorem cache_glyphs_hit (g : GlyphCalculatorGuard) (s : VariedSection)
    (layout : GlyphPositioner) (e : GlyphedSection)
    (h : cacheLookup g.glyph_cache (g.section_hasher s layout.hashTag) = some e) :
    cache_glyphs g s layout = (g.section_hasher s layout.hashTag, false, g) := by
  simp only [cache_glyphs]
  rw [h]

theorem cache_glyphs_miss (g : GlyphCalculatorGuard) (s : VariedSection)
    (layout : GlyphPositioner)
    (h : cacheLookup g.glyph_cache (g.section_hasher s layout.hashTag) = none) :
    cache_glyphs g s layout =
      (g.section_hasher s layout.hashTag, true,
       { g with glyph_cache :=
           (g.section_hasher s layout.hashTag, computedLayout g.fonts s layout) ::
             g.glyph_cache }) := by
  simp only [cache_glyphs]
  rw [h]

theorem cache_glyphs_invoked (g : GlyphCalculatorGuard) (s : VariedSection)
    (layout : GlyphPositioner) :
    (cache_glyphs g s layout).2.1 =
      (cacheLookup g.glyph_cache (g.section_hasher s layout.hashTag)).isNone := by
  cases h : cacheLookup g.glyph_cache (g.section_hasher s layout.hashTag) with
  | none => rw [cache_glyphs_miss g s layout h]; rfl
  | some e => rw [cache_glyphs_hit g s layout e h]; rfl

theorem cache_glyphs_cached (g : GlyphCalculatorGuard) (s : VariedSection)
    (layout : GlyphPositioner) : (cache_glyphs g s layout).2.2.cached = g.cached := by
  cases h : cacheLookup g.glyph_cache (g.section_hasher s layout.hashTag) with
  | none => rw [cache_glyphs_miss g s layout h]
  | some e => rw [cache_glyphs_hit g s layout e h]

theorem cache_glyphs_hasher (g : GlyphCalculatorGuard) (s : VariedSection)
    (layout : GlyphPositioner) :
    (cache_glyphs g s layout).2.2.section_hasher = g.section_hasher := by
  cases h : cacheLookup g.glyph_cache (g.section_hasher s layout.hashTag) with
  | none => rw [cache_glyphs_miss g s layout h]
  | some e => rw [cache_glyphs_hit g s layout e h]

theorem cache_glyphs_lookup_self (g : GlyphCalculatorGuard) (s : VariedSection)
    (layout : GlyphPositioner) :
    (cacheLookup (cache_glyphs g s layout).2.2.glyph_cache
      (g.section_hasher s layout.hashTag)).isSome = true := by
  cases h : cacheLookup g.glyph_cache (g.section_hasher s layout.hashTag) with
  | none =>
    rw [cache_glyphs_miss g s layout h]
    simp [cacheLookup]
  | some e => rw [cache_glyphs_hit g s layout e h]; simp [h]

theorem cache_glyphs_lookup_mono (g : GlyphCalculatorGuard) (s : VariedSection)
    (layout : GlyphPositioner) (k : Nat)
    (hk : (cacheLookup g.glyph_cache k).isSome = true) :
    (cacheLookup (cache_glyphs g s layout).2.2.glyph_cache k).isSome = true := by
  cases h : cacheLookup g.glyph_cache (g.section_hasher s layout.hashTag) with
  | none =>
    rw [cache_glyphs_miss g s layout h]
    show (cacheLookup (_ :: g.glyph_cache) k).isSome = true
    rw [cacheLookup]
    split
    · rfl
    · exact hk
  | some e => rw [cache_glyphs_hit g s layout e h]; exact hk

theorem guard_eta (g : GlyphCalculatorGuard) :
    ({ fonts := g.fonts, glyph_cache := g.glyph_cache, cached := g.cached,
       section_hasher := g.section_hasher } : GlyphCalculatorGuard) = g := rfl

theorem pixel_query_idem (g : GlyphCalculatorGuard) (s : VariedSection)
    (L : GlyphPositioner) :
    pixel_bounds_custom_layout (pixel_bounds_custom_layout g s L).2.2 s L =
      ((pixel_bounds_custom_layout g s L).1, false,
        (pixel_bounds_custom_layout g s L).2.2) := by
  obtain ⟨e, he⟩ := Option.isSome_iff_exists.mp (cache_glyphs_lookup_self g s L)
  simp only [pixel_bounds_custom_layout, cache_glyphs_hash]
  have he2 : cacheLookup
      ({ (cache_glyphs g s L).2.2 with
          cached := insertHash (cache_glyphs g s L).2.2.cached
            (g.section_hasher s L.hashTag) } : GlyphCalculatorGuard).glyph_cache
      (({ (cache_glyphs g s L).2.2 with
          cached := insertHash (cache_glyphs g s L).2.2.cached
            (g.section_hasher s L.hashTag) } : GlyphCalculatorGuard).section_hasher s
        L.hashTag) = some e := by
    rw [cache_glyphs_hasher]
    exact he
  rw [cache_glyphs_hit _ s L e he2, cache_glyphs_hasher]
  simp only [insertHash_of_mem _ _ (self_mem_insertHash _ _)]

theorem glyphs_query_idem (g : GlyphCalculatorGuard) (s : VariedSection)
    (L : GlyphPositioner) :
    glyphs_custom_layout (glyphs_custom_layout g s L).2.2 s L =
      ((glyphs_custom_layout g s L).1, false,
        (glyphs_custom_layout g s L).2.2) := by
  obtain ⟨e, he⟩ := Option.isSome_iff_exists.mp (cache_glyphs_lookup_self g s L)
  simp only [glyphs_custom_layout, cache_glyphs_hash]
  have he2 : cacheLookup
      ({ (cache_glyphs g s L).2.2 with
          cached := insertHash (cache_glyphs g s L).2.2.cached
            (g.section_hasher s L.hashTag) } : GlyphCalculatorGuard).glyph_cache
      (({ (cache_glyphs g s L).2.2 with
          cached := insertHash (cache_glyphs g s L).2.2.cached
            (g.section_hasher s L.hashTag) } : GlyphCalculatorGuard).section_hasher s
        L.hashTag) = some e := by
    rw [cache_glyphs_hasher]
    exact he
  rw [cache_glyphs_hit _ s L e he2, cache_glyphs_hasher]
  simp only [insertHash_of_mem _ _ (self_mem_insertHash _ _)]

theorem pixel_query_isSome (g : GlyphCalculatorGuard) (s : VariedSection)
    (L : GlyphPositioner) :
    ((pixel_bounds_custom_layout g s L).1).isSome = true := by
  obtain ⟨e, he⟩ := Option.isSome_iff_exists.mp (cache_glyphs_lookup_self g s L)
  simp only [pixel_bounds_custom_layout, cache_glyphs_hash, he, Option.map_some]
  rfl

theorem glyphs_query_isSome (g : GlyphCalculatorGuard) (s : VariedSection)
    (L : GlyphPositioner) :
    ((glyphs_custom_layout g s L).1).isSome = true := by
  obtain ⟨e, he⟩ := Option.isSome_iff_exists.mp (cache_glyphs_lookup_self g s L)
  simp only [glyphs_custom_layout, cache_glyphs_hash, he, Option.map_some]
  rfl

theorem mem_keys_dropGuard (g : GlyphCalculatorGuard) (k : Nat) :
    k ∈ (dropGuard g).map (fun e => e.1) ↔
      (k ∈ g.glyph_cache.map (fun e => e.1) ∧ k ∈ g.cached) := by
  unfold dropGuard
  constructor
  · intro hk
    obtain ⟨e, he, rfl⟩ := List.mem_map.mp hk
    have hm := List.mem_filter.mp he
    exact ⟨List.mem_map.mpr ⟨e, hm.1, rfl⟩, of_decide_eq_true hm.2⟩
  · rintro ⟨hk, hc⟩
    obtain ⟨e, he, rfl⟩ := List.mem_map.mp hk
    exact List.mem_map.mpr ⟨e, List.mem_filter.mpr ⟨he, decide_eq_true hc⟩, rfl⟩

theorem lookup_isSome_iff_mem_keys (c : GlyphCache) (k : Nat) :
    (cacheLookup c k).isSome = true ↔ k ∈ c.map (fun e => e.1) := by
  induction c with
  | nil => simp [cacheLookup]
  | cons e rest ih =>
    rw [cacheLookup]
    by_cases he : e.1 = k
    · simp [he]
    · simp only [he, if_false, List.map_cons, List.mem_cons, ih]
      constructor
      · exact fun hm => Or.inr hm
      · rintro (rfl | hm)
        · exact absurd rfl he
        · exact hm

theorem invTouched_cache_scope (c : GlyphCalculator) : InvTouched (cache_scope c) := by
  intro k hk
  simp [cache_scope] at hk

theorem invTouched_pixel_step (g : GlyphCalculatorGuard) (s : VariedSection)
    (L : GlyphPositioner) (hg : InvTouched g) :
    InvTouched ((pixel_bounds_custom_layout g s L).2.2) := by
  intro k hk
  simp only [pixel_bounds_custom_layout] at hk ⊢
  rw [cache_glyphs_cached] at hk
  rcases (mem_insertHash _ _ _).mp hk with rfl | hmem
  · rw [cache_glyphs_hash]
    exact cache_glyphs_lookup_self g s L
  · exact cache_glyphs_lookup_mono g s L k (hg k hmem)

theorem invTouched_glyphs_step (g : GlyphCalculatorGuard) (s : VariedSection)
    (L : GlyphPositioner) (hg : InvTouched g) :
    InvTouched ((glyphs_custom_layout g s L).2.2) := by
  intro k hk
  simp only [glyphs_custom_layout] at hk ⊢
  rw [cache_glyphs_cached] at hk
  rcases (mem_insertHash _ _ _).mp hk with rfl | hmem
  · rw [cache_glyphs_hash]
    exact cache_glyphs_lookup_self g s L
  · exact cache_glyphs_lookup_mono g s L k (hg k hmem)

theorem invTouched_reachable (g : GlyphCalculatorGuard) (hg : Reachable g) :
    InvTouched g := by
  induction hg with
  | init c => exact invTouched_cache_scope c
  | stepPixelBounds g s L _ ih => exact invTouched_pixel_step g s L ih
  | stepGlyphs g s L _ ih => exact invTouched_glyphs_step g s L ih

/-- Claim C3: in the Bounds Reducer, a glyph pixel box is discarded if and
only if it is strictly outside the integer layout rectangle on some axis (its
max below the layout min or its min above the layout max, on x or y); every
surviving box is clamped to its intersection with the layout rectangle
(component-wise max of mins, min of maxes).  A box that merely touches the
boundary does not satisfy any strict inequality, hence survives. -/
theorem claim_C3 (lb rect : Rect Int) :
    (inside_layout lb rect = none ↔
      (rect.max.x < lb.min.x ∨ rect.max.y < lb.min.y ∨
        rect.min.x > lb.max.x ∨ rect.min.y > lb.max.y)) ∧
    inside_layout lb rect =
      (if rect.max.x < lb.min.x ∨ rect.max.y < lb.min.y ∨
          rect.min.x > lb.max.x ∨ rect.min.y > lb.max.y then none
       else
         some { min := { x := max rect.min.x lb.min.x, y := max rect.min.y lb.min.y },
                max := { x := min rect.max.x lb.max.x, y := min rect.max.y lb.max.y } }) :=
  ⟨inside_layout_none_iff lb rect, rfl⟩

/-- Claim C4: pixel_bounds is absent exactly when no glyph pixel box survives
the intersection filter, and otherwise is the component-wise union (min of
mins, max of maxes) of all surviving clamped boxes; the absent result is an
ordinary value, not an error. -/
theorem claim_C4 (gs : GlyphedSection) :
    gs.pixel_bounds =
      (match survivors gs with
       | [] => none
       | b :: l => some (l.foldl unionRect b)) :=
  pixel_bounds_eq gs

/-- Claim C5, counterexample: the claim says the integer rectangle min is the
floored declared minimum, but for the finite declared minimum -2^32 the code
saturates the cast to i32::MIN = -2147483648, which differs from the floor
-4294967296. -/
theorem claim_C5_counterexample :
    c5Bounds.min.x = F32.finite ((-4294967296 : Int) : ℚ) ∧
    Rat.floor ((-4294967296 : Int) : ℚ) = -4294967296 ∧
    (layout_bounds c5Bounds).min.x = -2147483648 ∧
    (layout_bounds c5Bounds).min.x ≠ Rat.floor ((-4294967296 : Int) : ℚ) :=
  ⟨rfl, by decide, by decide, by decide⟩

/-- Claim C5, amended: for finite declared bounds the integer layout rectangle
is the floored minimum and the ceiled maximum, each saturated into the i32
range (in particular the ceiled maximum becomes i32::MAX whenever it would
exceed it, and components below i32::MIN become i32::MIN).  Rat.floor and
ratCeil are the exact floor and ceiling, see ratFloor_eq and ratCeil_eq. -/
theorem claim_C5 (a b c d : ℚ) :
    layout_bounds { min := { x := .finite a, y := .finite b },
                    max := { x := .finite c, y := .finite d } } =
      { min := { x := clampI32 (Rat.floor a), y := clampI32 (Rat.floor b) },
        max := { x := clampI32 (ratCeil c), y := clampI32 (ratCeil d) } } :=
  layout_bounds_finite a b c d

/-- Claim C6, counterexample: a section with finite declared bounds (max x the
finite f32 value -2^32) and a present pixel_bounds result whose max x exceeds
the ceiled declared maximum, because the saturating conversion raised the
layout rectangle max to i32::MIN. -/
theorem claim_C6_counterexample :
    c6Section.bounds.max.x = F32.finite ((-4294967296 : Int) : ℚ) ∧
    c6Section.pixel_bounds =
      some { min := { x := -2147483648, y := 0 },
             max := { x := -2147483648, y := 1 } } ∧
    ratCeil ((-4294967296 : Int) : ℚ) = -4294967296 ∧
    ¬((-2147483648 : Int) ≤ ratCeil ((-4294967296 : Int) : ℚ)) :=
  ⟨rfl, by decide, by decide, by decide⟩

/-- Claim C6, amended: for sections with finite declared bounds whose floored
minima do not exceed i32::MAX and whose ceiled maxima are not below i32::MIN
(so that the saturating conversion cannot cross the declared bounds), a
present pixel_bounds rectangle is contained in the floor-min ceil-max integer
expansion of the declared bounds. -/
theorem claim_C6 (gs : GlyphedSection) (a b c d : ℚ) (r : Rect Int)
    (hb : gs.bounds = { min := { x := .finite a, y := .finite b },
                        max := { x := .finite c, y := .finite d } })
    (hfa : Rat.floor a ≤ 2147483647) (hfb : Rat.floor b ≤ 2147483647)
    (hcc : -2147483648 ≤ ratCeil c) (hcd : -2147483648 ≤ ratCeil d)
    (hr : gs.pixel_bounds = some r) :
    Rat.floor a ≤ r.min.x ∧ Rat.floor b ≤ r.min.y ∧
      r.max.x ≤ ratCeil c ∧ r.max.y ≤ ratCeil d := by
  have hw := pixel_bounds_within gs r hr
  rw [hb, layout_bounds_finite] at hw
  simp only [withinLB] at hw
  obtain ⟨h1, h2, h3, h4⟩ := hw
  refine ⟨le_trans ?_ h1, le_trans ?_ h2, le_trans h3 ?_, le_trans h4 ?_⟩ <;>
    unfold clampI32 <;> omega

/-- Claim C6, witness: the amended containment applied to a concrete section
with bounds 0..10 and one glyph box from (1,1) to (2,2). -/
theorem claim_C6_witness :
    (gsEx.bounds = { min := { x := .finite ((0 : Int) : ℚ), y := .finite ((0 : Int) : ℚ) },
                     max := { x := .finite ((10 : Int) : ℚ), y := .finite ((10 : Int) : ℚ) } } ∧
     Rat.floor ((0 : Int) : ℚ) ≤ 2147483647 ∧
     -2147483648 ≤ ratCeil ((10 : Int) : ℚ) ∧
     gsEx.pixel_bounds = some { min := { x := 1, y := 1 }, max := { x := 2, y := 2 } }) ∧
    (Rat.floor ((0 : Int) : ℚ) ≤ 1 ∧ Rat.floor ((0 : Int) : ℚ) ≤ 1 ∧
      (2 : Int) ≤ ratCeil ((10 : Int) : ℚ) ∧ (2 : Int) ≤ ratCeil ((10 : Int) : ℚ)) :=
  ⟨⟨rfl, by decide, by decide, by decide⟩,
   claim_C6 gsEx ((0 : Int) : ℚ) ((0 : Int) : ℚ) ((10 : Int) : ℚ) ((10 : Int) : ℚ)
     { min := { x := 1, y := 1 }, max := { x := 2, y := 2 } } rfl
     (by decide) (by decide) (by decide) (by decide) (by decide)⟩

theorem pixel_query_of_hit (g : GlyphCalculatorGuard) (s : VariedSection)
    (L : GlyphPositioner) (e : GlyphedSection)
    (he : cacheLookup g.glyph_cache (g.section_hasher s L.hashTag) = some e) :
    pixel_bounds_custom_layout g s L =
      (some e.pixel_bounds, false,
        { g with cached := insertHash g.cached (g.section_hasher s L.hashTag) }) := by
  simp only [pixel_bounds_custom_layout, cache_glyphs_hit g s L e he, he]
  rfl

/-- Claim C1: releasing a scope replaces the cache entry set by the
intersection of the previous entry set with the touched set; concretely, after
scope A touches fingerprints 1 and 2 and releases, and scope B touches only
fingerprint 1 and releases, the cache holds exactly the entry with
fingerprint 1. -/
theorem claim_C1 :
    (∀ (g : GlyphCalculatorGuard) (k : Nat),
      k ∈ (dropGuard g).map (fun e => e.1) ↔
        (k ∈ g.glyph_cache.map (fun e => e.1) ∧ k ∈ g.cached)) ∧
    (runScope (runScope calcEx opsA) opsB).calculate_glyph_cache.map (fun e => e.1) =
      [1] :=
  ⟨fun g k => mem_keys_dropGuard g k, by decide⟩

/-- Claim C2: within one scope, repeating the same query returns the same
output, leaves the guard unchanged and does not invoke calculate_glyphs
(instrumentation flag false), for both the pixel-bounds query and the glyphs
query; moreover a call invokes calculate_glyphs exactly when the fingerprint
was vacant, so the same query is computed at most once per scope. -/
theorem claim_C2 (g : GlyphCalculatorGuard) (s : VariedSection) (L : GlyphPositioner) :
    (pixel_bounds_custom_layout (pixel_bounds_custom_layout g s L).2.2 s L =
      ((pixel_bounds_custom_layout g s L).1, false,
        (pixel_bounds_custom_layout g s L).2.2)) ∧
    (glyphs_custom_layout (glyphs_custom_layout g s L).2.2 s L =
      ((glyphs_custom_layout g s L).1, false, (glyphs_custom_layout g s L).2.2)) ∧
    ((pixel_bounds_custom_layout g s L).2.1 =
      (cacheLookup g.glyph_cache (g.section_hasher s L.hashTag)).isNone) ∧
    ((glyphs_custom_layout g s L).2.1 =
      (cacheLookup g.glyph_cache (g.section_hasher s L.hashTag)).isNone) :=
  ⟨pixel_query_idem g s L, glyphs_query_idem g s L,
    by simp only [pixel_bounds_custom_layout]; exact cache_glyphs_invoked g s L,
    by simp only [glyphs_custom_layout]; exact cache_glyphs_invoked g s L⟩

theorem pixel_query_hasher (g : GlyphCalculatorGuard) (s : VariedSection)
    (L : GlyphPositioner) :
    (pixel_bounds_custom_layout g s L).2.2.section_hasher = g.section_hasher := by
  simp only [pixel_bounds_custom_layout]
  exact cache_glyphs_hasher g s L

theorem pixel_query_mem_cached (g : GlyphCalculatorGuard) (s : VariedSection)
    (L : GlyphPositioner) :
    g.section_hasher s L.hashTag ∈ (pixel_bounds_custom_layout g s L).2.2.cached := by
  simp only [pixel_bounds_custom_layout, cache_glyphs_hash]
  exact self_mem_insertHash _ _

theorem pixel_query_lookup_of_miss (g : GlyphCalculatorGuard) (s : VariedSection)
    (L : GlyphPositioner)
    (hfresh : cacheLookup g.glyph_cache (g.section_hasher s L.hashTag) = none) :
    cacheLookup (pixel_bounds_custom_layout g s L).2.2.glyph_cache
      (g.section_hasher s L.hashTag) = some (computedLayout g.fonts s L) := by
  simp only [pixel_bounds_custom_layout, cache_glyphs_miss g s L hfresh]
  rw [cacheLookup]
  simp

/-- Claim C7: when two (section, positioner) pairs share a fingerprint and the
first pair has just been cached, the query for the second pair does not invoke
the positioner (flag false), leaves the guard unchanged and returns the
derived output of the first-inserted computed layout. -/
theorem claim_C7 (g : GlyphCalculatorGuard) (s1 s2 : VariedSection)
    (L1 L2 : GlyphPositioner)
    (hcol : g.section_hasher s1 L1.hashTag = g.section_hasher s2 L2.hashTag)
    (hfresh : cacheLookup g.glyph_cache (g.section_hasher s1 L1.hashTag) = none) :
    pixel_bounds_custom_layout (pixel_bounds_custom_layout g s1 L1).2.2 s2 L2 =
      (some (computedLayout g.fonts s1 L1).pixel_bounds, false,
        (pixel_bounds_custom_layout g s1 L1).2.2) := by
  have hhash : (pixel_bounds_custom_layout g s1 L1).2.2.section_hasher s2 L2.hashTag =
      g.section_hasher s1 L1.hashTag := by
    rw [pixel_query_hasher, ← hcol]
  have he2 : cacheLookup (pixel_bounds_custom_layout g s1 L1).2.2.glyph_cache
      ((pixel_bounds_custom_layout g s1 L1).2.2.section_hasher s2 L2.hashTag) =
        some (computedLayout g.fonts s1 L1) := by
    rw [hhash]
    exact pixel_query_lookup_of_miss g s1 L1 hfresh
  rw [pixel_query_of_hit _ s2 L2 _ he2]
  have hmem : (pixel_bounds_custom_layout g s1 L1).2.2.section_hasher s2 L2.hashTag ∈
      (pixel_bounds_custom_layout g s1 L1).2.2.cached := by
    rw [hhash]
    exact pixel_query_mem_cached g s1 L1
  rw [insertHash_of_mem _ _ hmem]

/-- Claim C7, witness: the collision behaviour at a concrete guard with the
constant hasher, two distinct sections and a fresh cache. -/
theorem claim_C7_witness :
    ((cache_scope calcCollide).section_hasher secOne layoutZero.hashTag =
      (cache_scope calcCollide).section_hasher secTwo layoutZero.hashTag) ∧
    (cacheLookup (cache_scope calcCollide).glyph_cache
      ((cache_scope calcCollide).section_hasher secOne layoutZero.hashTag) = none) ∧
    (pixel_bounds_custom_layout
        (pixel_bounds_custom_layout (cache_scope calcCollide) secOne layoutZero).2.2
        secTwo layoutZero =
      (some (computedLayout (cache_scope calcCollide).fonts secOne layoutZero).pixel_bounds,
        false,
        (pixel_bounds_custom_layout (cache_scope calcCollide) secOne layoutZero).2.2)) :=
  ⟨rfl, rfl, claim_C7 (cache_scope calcCollide) secOne secTwo layoutZero layoutZero rfl rfl⟩

/-- Claim C8: releasing a scope with an empty touched set leaves an empty
cache (pruning runs normally, it cannot panic since it is a total filter),
and a scope release applies the pruning exactly once, as the single dropGuard
application in runScope. -/
theorem claim_C8 :
    (∀ (fonts : FontMap) (cache : GlyphCache) (hf : SectionHasher),
      dropGuard { fonts := fonts, glyph_cache := cache, cached := [],
                  section_hasher := hf } = []) ∧
    (∀ (c : GlyphCalculator) (ops : List QueryOp),
      (runScope c ops).calculate_glyph_cache =
        dropGuard (ops.foldl applyOp (cache_scope c))) := by
  constructor
  · intro fonts cache hf
    unfold dropGuard
    simp
  · intro c ops
    rfl

/-- Claim C9: the glyphs query returns the sequence derived fresh from the
immutable cached glyph list by projecting the glyph of each stored triple in
stored order; deriving it leaves the cache exactly as cache_glyphs left it,
and repeating the query within the scope returns the same sequence. -/
theorem claim_C9 (g : GlyphCalculatorGuard) (s : VariedSection) (L : GlyphPositioner) :
    ((glyphs_custom_layout g s L).1 =
      (cacheLookup (cache_glyphs g s L).2.2.glyph_cache
        (g.section_hasher s L.hashTag)).map (fun e => e.glyphsIter)) ∧
    ((glyphs_custom_layout g s L).2.2.glyph_cache = (cache_glyphs g s L).2.2.glyph_cache) ∧
    ((glyphs_custom_layout (glyphs_custom_layout g s L).2.2 s L).1 =
      (glyphs_custom_layout g s L).1) := by
  refine ⟨?_, rfl, ?_⟩
  · simp only [glyphs_custom_layout, cache_glyphs_hash]
  · rw [glyphs_query_idem g s L]

/-- Claim C10: while a scope is open the touched set only holds fingerprints
present in the cache (cache_glyphs inserts before the fingerprint is recorded),
so the direct cache index of every query succeeds, and on release the retained
key set equals the touched set exactly. -/
theorem claim_C10 (g : GlyphCalculatorGuard) (hg : Reachable g) :
    InvTouched g ∧
    (∀ (s : VariedSection) (L : GlyphPositioner),
      ((pixel_bounds_custom_layout g s L).1).isSome = true ∧
      ((glyphs_custom_layout g s L).1).isSome = true) ∧
    (∀ k : Nat, k ∈ (dropGuard g).map (fun e => e.1) ↔ k ∈ g.cached) := by
  have hinv := invTouched_reachable g hg
  refine ⟨hinv, fun s L => ⟨pixel_query_isSome g s L, glyphs_query_isSome g s L⟩, ?_⟩
  intro k
  rw [mem_keys_dropGuard]
  constructor
  · exact fun h => h.2
  · intro hk
    exact ⟨(lookup_isSome_iff_mem_keys _ _).mp (hinv k hk), hk⟩

/-- Claim C10, witness: the invariant instantiated at the freshly opened scope
of the concrete calculator. -/
theorem claim_C10_witness :
    InvTouched (cache_scope calcEx) ∧
    (∀ (s : VariedSection) (L : GlyphPositioner),
      ((pixel_bounds_custom_layout (cache_scope calcEx) s L).1).isSome = true ∧
      ((glyphs_custom_layout (cache_scope calcEx) s L).1).isSome = true) ∧
    (∀ k : Nat, k ∈ (dropGuard (cache_scope calcEx)).map (fun e => e.1) ↔
      k ∈ (cache_scope calcEx).cached) :=
  claim_C10 (cache_scope calcEx) (Reachable.init calcEx)

end GfxGlyph
